import Mathlib

/-
Verification of the ESP32-Air-Drums receiver core: a shallow embedding of
src/midi_handler.py (the fallback MIDI byte parser of
MidiHandler.handle_packet) and src/audio_engine.py (AudioEngine
note_on / note_off voice tracking and the synthesized drum bank).
-/

/-- The callback invocations emitted by MidiHandler.handle_packet
(note_on_cb, note_off_cb, control_change_cb), in order. -/
inductive Event where
  | noteOn (note velocity : Nat)
  | noteOff (note : Nat)
  | controlChange (cc value : Nat)
deriving DecidableEq, Repr

/-- One run of the fallback while-loop of MidiHandler.handle_packet
(midi_handler.py lines 40-66), embedded with explicit fuel.  The result is
the list of callback invocations; `none` models either a loop that fails
to terminate within the given fuel or an unguarded index access
(IndexError), so that termination and index safety are provable facts
rather than assumptions made by the embedding.  `hasCC` records whether a
control_change callback was registered (it is optional in __init__).
Callbacks themselves are modelled as pure event emissions (the claimed
properties assume the callbacks do not raise). -/
def parseGo (hasCC : Bool) (data : List Nat) : Nat → Nat → Option (List Event)
  | 0, _ => none
  | fuel + 1, i =>
    if i < data.length then
      match data.get? i with
      | none => none
      | some status =>
        if 0x80 ≤ status ∧ status ≤ 0xEF then
          if status &&& 0xF0 = 0x80 ∨ status &&& 0xF0 = 0x90 ∨ status &&& 0xF0 = 0xB0 then
            if i + 2 < data.length then
              match data.get? (i + 1), data.get? (i + 2) with
              | some a, some b =>
                let evs : List Event :=
                  if status &&& 0xF0 = 0x90 then
                    if 0 < b then [Event.noteOn a b] else [Event.noteOff a]
                  else if status &&& 0xF0 = 0x80 then [Event.noteOff a]
                  else if status &&& 0xF0 = 0xB0 ∧ hasCC = true then [Event.controlChange a b]
                  else []
                (parseGo hasCC data fuel (i + 3)).map (fun rest => evs ++ rest)
              | _, _ => none
            else parseGo hasCC data fuel (i + 1)
          else parseGo hasCC data fuel (i + 1)
        else parseGo hasCC data fuel (i + 1)
    else some []

/-- MidiHandler.handle_packet on the fallback path (mido unavailable or
failing): run the scan loop from cursor 0.  Fuel data.length + 1 is
sufficient (proved below); the getD default is never reached. -/
def handle_packet (hasCC : Bool) (data : List Nat) : List Event :=
  (parseGo hasCC data (data.length + 1) 0).getD []

/-- Every note/controller and velocity/value field of the event is below
the bound m. -/
def fieldsBelow (m : Nat) : Event → Bool
  | .noteOn n v => decide (n < m) && decide (v < m)
  | .noteOff n => decide (n < m)
  | .controlChange c v => decide (c < m) && decide (v < m)

/-- Association-list lookup with first-match-wins, modelling Python dict
subscripting / dict.get (a dict holds at most one entry per key, which the
tracking invariant below establishes for the embedding). -/
def alookup {α β : Type} [DecidableEq α] (k : α) : List (α × β) → Option β
  | [] => none
  | (k₁, v) :: t => if k₁ = k then some v else alookup k t

/-- Python dict assignment d[k] = v: replace the entry in place when the
key is present, append a fresh entry otherwise. -/
def setEntry {α β : Type} [DecidableEq α] (k : α) (v : β) : List (α × β) → List (α × β)
  | [] => [(k, v)]
  | (k₁, v₁) :: t => if k₁ = k then (k, v) :: t else (k₁, v₁) :: setEntry k v t

/-- Python dict.pop(k, None), state part: drop the entry for k when present. -/
def removeKey {α β : Type} [DecidableEq α] (k : α) : List (α × β) → List (α × β)
  | [] => []
  | (k₁, v₁) :: t => if k₁ = k then t else (k₁, v₁) :: removeKey k t

/-- AudioEngine._note_map (audio_engine.py lines 25-43), in source order:
MIDI note number to drum-sample key. -/
def note_map : List (Nat × String) :=
  [(35, "kick"), (36, "kick"), (38, "snare"), (40, "snare"),
   (42, "hihat_closed"), (44, "hihat_closed"), (46, "hihat_open"),
   (47, "tom_low"), (48, "tom_mid"), (50, "tom_high"),
   (49, "crash"), (51, "ride"), (52, "crash"), (53, "ride"),
   (41, "tom_low"), (43, "tom_low"), (45, "tom_mid")]

/-- self._note_map.get(note, "snare"): drum key for a MIDI note, default
snare for unmapped notes (note_on line 238). -/
def resolveDrum (note : Nat) : String :=
  match alookup note note_map with
  | some d => d
  | none => "snare"

/-- Mutable AudioEngine state touched by note_on / note_off:
the active-voices dict note -> pygame Channel (channels as numeric ids),
and the current playback volume of each bank Sound (the only attribute of
the precomputed Sound objects the engine ever sets; the underlying sample
buffers are fixed at construction and never reassigned). -/
structure EngineState where
  active : List (Nat × Nat)
  volumes : List (String × ℚ)
deriving DecidableEq, Repr

/-- Engine state right after AudioEngine.__init__: no active voices, all
nine bank sounds (keys in _generate_drum_samples insertion order) at the
pygame default volume 1.0. -/
def engineInit : EngineState :=
  { active := []
    volumes :=
      [("kick", 1), ("snare", 1), ("hihat_closed", 1), ("hihat_open", 1),
       ("tom_low", 1), ("tom_mid", 1), ("tom_high", 1), ("crash", 1), ("ride", 1)] }

/-- AudioEngine.note_on (audio_engine.py lines 235-252).  The result of
sound.play() is external (a pygame Channel or None on failure) and is
passed in as playResult.  Steps: resolve the drum key with snare default;
return early when the bank has no such sound; set the shared Sound's
volume to velocity/127.0; play; record the channel in the active table
only when one was acquired. -/
def note_on (note velocity : Nat) (playResult : Option Nat) (e : EngineState) : EngineState :=
  let drum_type := resolveDrum note
  match alookup drum_type e.volumes with
  | none => e
  | some _ =>
    let e₁ : EngineState :=
      { e with volumes := setEntry drum_type ((velocity : ℚ) / 127) e.volumes }
    match playResult with
    | some channel => { e₁ with active := setEntry note channel e₁.active }
    | none => e₁

/-- AudioEngine.note_off (audio_engine.py lines 254-261):
pop the tracked channel for the note; when one was tracked, request
channel.fadeout(100) — returned as the (channel, milliseconds) action —
otherwise do nothing.  The try/except around fadeout has no state effect. -/
def note_off (note : Nat) (e : EngineState) : EngineState × Option (Nat × Nat) :=
  match alookup note e.active with
  | none => (e, none)
  | some channel =>
    ({ e with active := removeKey note e.active }, some (channel, 100))

/-- A call into the playback engine: note_on with the channel that
sound.play() yielded (none models play failure), or note_off. -/
inductive DrumOp where
  | trig (note velocity : Nat) (playResult : Option Nat)
  | rel (note : Nat)

/-- Apply one engine call to the state. -/
def applyOp (e : EngineState) : DrumOp → EngineState
  | .trig n v p => note_on n v p e
  | .rel n => (note_off n e).1

/-- Run a sequence of note_on / note_off calls. -/
def runOps (ops : List DrumOp) (e : EngineState) : EngineState :=
  ops.foldl applyOp e

/-- The dict invariant for the embedding's association lists: at most one
entry per key. -/
def keysNodup {α β : Type} (l : List (α × β)) : Prop :=
  (l.map Prod.fst).Nodup

instance {α β : Type} [DecidableEq α] (l : List (α × β)) : Decidable (keysNodup l) :=
  inferInstanceAs (Decidable ((l.map Prod.fst).Nodup))

/-- The MIDI note numbers carried by AudioEngine._note_map, as listed by
the specification. -/
def mappedNotes : List Nat :=
  [35, 36, 38, 40, 41, 42, 43, 44, 45, 46, 47, 48, 49, 50, 51, 52, 53]

noncomputable section

/-- np.max(np.abs(w)) over a sample list, with 0 for the empty list (the
recipes guard the empty case separately, since np.max raises there). -/
def peakAbs (l : List ℝ) : ℝ :=
  l.foldr (fun x m => max |x| m) 0

/-- wave / np.max(np.abs(wave)) * c : rescale so the peak maps to the
target ceiling c. -/
def normalizeTo (c : ℝ) (l : List ℝ) : List ℝ :=
  l.map fun x => x / peakAbs l * c

/-- np.cumsum f at index k: f 0 + ... + f k. -/
def cumsum (f : ℕ → ℝ) (k : ℕ) : ℝ :=
  ∑ j in Finset.range (k + 1), f j

/-- np.column_stack((audio, audio)): duplicate the mono signal into two
identical channels. -/
def stereoOf (l : List ℝ) : List (ℝ × ℝ) :=
  l.map fun x => (x, x)

/-- All-zero realization of np.random.randn (the synthesis recipes take
the noise draw as an explicit parameter, randomness being external). -/
def noiseZero : ℕ → ℝ := fun _ => 0

/-- All-one realization of np.random.randn. -/
def noiseOne : ℕ → ℝ := fun _ => 1

/-- _create_kick pitch envelope: freq = max(150*exp(-8 t), 40) at sample
j, with t = linspace(0, 0.5, sr/2, endpoint=False). -/
def kickFreq (sr : ℕ) (j : ℕ) : ℝ :=
  max (150 * Real.exp (-8 * (j * ((0.5 : ℝ) / (sr / 2 : ℕ))))) 40

/-- _create_kick sample k before normalization (audio_engine.py lines
77-100): sin of the accumulated phase 2*pi*cumsum(freq)/sr times the
exp(-8 t) envelope, plus the exp(-100 t) onset click scaled by 0.3. -/
def kickWave (sr : ℕ) (noise : ℕ → ℝ) (k : ℕ) : ℝ :=
  Real.sin (2 * Real.pi * cumsum (kickFreq sr) k / sr) *
      Real.exp (-8 * (k * ((0.5 : ℝ) / (sr / 2 : ℕ)))) +
    Real.exp (-100 * (k * ((0.5 : ℝ) / (sr / 2 : ℕ)))) * noise k * 0.3

/-- _create_kick raw buffer: int(sr*0.5) = sr/2 samples. -/
def rawKick (sr : ℕ) (noise : ℕ → ℝ) : List ℝ :=
  (List.range (sr / 2)).map (kickWave sr noise)

/-- _create_kick output (normalization tail at lines 101-105); none when
the sample count is zero, where np.max of an empty array raises. -/
def create_kick (sr : ℕ) (noise : ℕ → ℝ) : Option (List ℝ) :=
  if sr / 2 = 0 then none else some (normalizeTo 0.9 (rawKick sr noise))

/-- _create_snare sample k before normalization (lines 107-122):
30% of a 200 Hz sine with exp(-15 t) decay plus 70% of noise with
exp(-12 t) decay, t = linspace(0, 0.2, sr/5, endpoint=False). -/
def snareWave (sr : ℕ) (noise : ℕ → ℝ) (k : ℕ) : ℝ :=
  Real.sin (2 * Real.pi * 200 * (k * ((0.2 : ℝ) / (sr / 5 : ℕ)))) *
      Real.exp (-15 * (k * ((0.2 : ℝ) / (sr / 5 : ℕ)))) * 0.3 +
    noise k * Real.exp (-12 * (k * ((0.2 : ℝ) / (sr / 5 : ℕ)))) * 0.7

/-- _create_snare raw buffer: int(sr*0.2) = sr/5 samples. -/
def rawSnare (sr : ℕ) (noise : ℕ → ℝ) : List ℝ :=
  (List.range (sr / 5)).map (snareWave sr noise)

/-- _create_snare output (ceiling 0.85, lines 124-128). -/
def create_snare (sr : ℕ) (noise : ℕ → ℝ) : Option (List ℝ) :=
  if sr / 5 = 0 then none else some (normalizeTo 0.85 (rawSnare sr noise))

/-- _create_hihat_closed sample k before normalization (lines 130-144):
noise amplitude-modulated by 1 + 5*sin(2 pi 8000 t), decayed by
exp(-80 t), t = linspace(0, 0.05, sr/20, endpoint=False). -/
def hihatClosedWave (sr : ℕ) (noise : ℕ → ℝ) (k : ℕ) : ℝ :=
  noise k * (1 + 5 * Real.sin (2 * Real.pi * 8000 * (k * ((0.05 : ℝ) / (sr / 20 : ℕ))))) *
    Real.exp (-80 * (k * ((0.05 : ℝ) / (sr / 20 : ℕ))))

/-- _create_hihat_closed raw buffer: int(sr*0.05) = sr/20 samples. -/
def rawHihatClosed (sr : ℕ) (noise : ℕ → ℝ) : List ℝ :=
  (List.range (sr / 20)).map (hihatClosedWave sr noise)

/-- _create_hihat_closed output (ceiling 0.6, lines 146-149). -/
def create_hihat_closed (sr : ℕ) (noise : ℕ → ℝ) : Option (List ℝ) :=
  if sr / 20 = 0 then none else some (normalizeTo 0.6 (rawHihatClosed sr noise))

/-- _create_hihat_open sample k before normalization (lines 151-163):
noise modulated by 1 + 3*sin(2 pi 7000 t), decayed by exp(-8 t),
t = linspace(0, 0.3, 3*sr/10, endpoint=False). -/
def hihatOpenWave (sr : ℕ) (noise : ℕ → ℝ) (k : ℕ) : ℝ :=
  noise k * (1 + 3 * Real.sin (2 * Real.pi * 7000 * (k * ((0.3 : ℝ) / (3 * sr / 10 : ℕ))))) *
    Real.exp (-8 * (k * ((0.3 : ℝ) / (3 * sr / 10 : ℕ))))

/-- _create_hihat_open raw buffer: int(sr*0.3) = 3*sr/10 samples. -/
def rawHihatOpen (sr : ℕ) (noise : ℕ → ℝ) : List ℝ :=
  (List.range (3 * sr / 10)).map (hihatOpenWave sr noise)

/-- _create_hihat_open output (ceiling 0.5, lines 165-168). -/
def create_hihat_open (sr : ℕ) (noise : ℕ → ℝ) : Option (List ℝ) :=
  if 3 * sr / 10 = 0 then none else some (normalizeTo 0.5 (rawHihatOpen sr noise))

/-- _create_tom pitch envelope: freq = base_freq * exp(-5 t) at sample j,
t = linspace(0, 0.4, 2*sr/5, endpoint=False). -/
def tomFreq (base : ℝ) (sr : ℕ) (j : ℕ) : ℝ :=
  base * Real.exp (-5 * (j * ((0.4 : ℝ) / (2 * sr / 5 : ℕ))))

/-- _create_tom sample k before normalization (lines 170-187): sine of
the accumulated phase plus 2nd and 3rd harmonics at 30% and 10%, all
decayed by exp(-7 t). -/
def tomWave (base : ℝ) (sr : ℕ) (k : ℕ) : ℝ :=
  (Real.sin (2 * Real.pi * cumsum (tomFreq base sr) k / sr) +
      0.3 * Real.sin (2 * (2 * Real.pi * cumsum (tomFreq base sr) k / sr)) +
      0.1 * Real.sin (3 * (2 * Real.pi * cumsum (tomFreq base sr) k / sr))) *
    Real.exp (-7 * (k * ((0.4 : ℝ) / (2 * sr / 5 : ℕ))))

/-- _create_tom raw buffer: int(sr*0.4) = 2*sr/5 samples. -/
def rawTom (base : ℝ) (sr : ℕ) : List ℝ :=
  (List.range (2 * sr / 5)).map (tomWave base sr)

/-- _create_tom output (ceiling 0.8, lines 189-192). -/
def create_tom (base : ℝ) (sr : ℕ) : Option (List ℝ) :=
  if 2 * sr / 5 = 0 then none else some (normalizeTo 0.8 (rawTom base sr))

/-- _create_crash sample k before normalization (lines 194-209): noise
successively modulated by 1 + 0.3*sin(2 pi f t) for f in 3000, 5000,
8000, 12000, decayed by exp(-2 t), t = linspace(0, 1.5, 3*sr/2,
endpoint=False). -/
def crashWave (sr : ℕ) (noise : ℕ → ℝ) (k : ℕ) : ℝ :=
  noise k * (1 + 0.3 * Real.sin (2 * Real.pi * 3000 * (k * ((1.5 : ℝ) / (3 * sr / 2 : ℕ))))) *
      (1 + 0.3 * Real.sin (2 * Real.pi * 5000 * (k * ((1.5 : ℝ) / (3 * sr / 2 : ℕ))))) *
      (1 + 0.3 * Real.sin (2 * Real.pi * 8000 * (k * ((1.5 : ℝ) / (3 * sr / 2 : ℕ))))) *
      (1 + 0.3 * Real.sin (2 * Real.pi * 12000 * (k * ((1.5 : ℝ) / (3 * sr / 2 : ℕ))))) *
    Real.exp (-2 * (k * ((1.5 : ℝ) / (3 * sr / 2 : ℕ))))

/-- _create_crash raw buffer: int(sr*1.5) = 3*sr/2 samples. -/
def rawCrash (sr : ℕ) (noise : ℕ → ℝ) : List ℝ :=
  (List.range (3 * sr / 2)).map (crashWave sr noise)

/-- _create_crash output (ceiling 0.6, lines 211-214). -/
def create_crash (sr : ℕ) (noise : ℕ → ℝ) : Option (List ℝ) :=
  if 3 * sr / 2 = 0 then none else some (normalizeTo 0.6 (rawCrash sr noise))

/-- _create_ride sample k before normalization (lines 216-228): 800 Hz
sine plus half-amplitude 1600 Hz sine plus 30% noise, decayed by
exp(-3 t), t = linspace(0, 1.0, sr, endpoint=False). -/
def rideWave (sr : ℕ) (noise : ℕ → ℝ) (k : ℕ) : ℝ :=
  (Real.sin (2 * Real.pi * 800 * (k * ((1 : ℝ) / sr))) +
      0.5 * Real.sin (2 * Real.pi * 1600 * (k * ((1 : ℝ) / sr))) +
      noise k * 0.3) *
    Real.exp (-3 * (k * ((1 : ℝ) / sr)))

/-- _create_ride raw buffer: int(sr*1.0) = sr samples. -/
def rawRide (sr : ℕ) (noise : ℕ → ℝ) : List ℝ :=
  (List.range sr).map (rideWave sr noise)

/-- _create_ride output (ceiling 0.65, lines 230-233). -/
def create_ride (sr : ℕ) (noise : ℕ → ℝ) : Option (List ℝ) :=
  if sr = 0 then none else some (normalizeTo 0.65 (rawRide sr noise))

/-- The normalize-and-convert contract of one synthesized buffer: its
peak absolute amplitude is exactly the ceiling c, it is non-silent (some
sample attains |x| = c), every sample scaled by 2^15 - 1 = 32767 (the
conversion audio = wave * (2**15 - 1) before the int16 cast) stays inside
the 16-bit signed range, and the stereo duplication has identical
channels. -/
def bufOK (c : ℝ) (l : List ℝ) : Prop :=
  peakAbs l = c ∧
  (∃ x ∈ l, |x| = c) ∧
  (∀ x ∈ l, -(2 ^ 15 : ℝ) ≤ x * 32767 ∧ x * 32767 ≤ 2 ^ 15 - 1) ∧
  (∀ pr ∈ stereoOf l, pr.1 = pr.2)

end

example : resolveDrum 127 = "snare" := by decide
example : resolveDrum 36 = "kick" := by decide
example : (note_on 36 80 (some 3) engineInit).active = [(36, 3)] := by decide

example : handle_packet true [0x90, 0x24, 0x00] = [Event.noteOff 36] := by decide
example : handle_packet true [0x90, 0x26, 0x64] = [Event.noteOn 38 100] := by decide
example : handle_packet true [0x99, 0x24, 0x64, 0x89, 0x24, 0x40] =
    [Event.noteOn 36 100, Event.noteOff 36] := by decide
example : handle_packet true [0x90, 0x80, 0x40] = [Event.noteOn 128 64] := by decide
example : handle_packet true [0x90, 0x24] = [] := by decide
example : ("kick" : String) ≠ "snare" := by decide
example : (64 : ℚ) / 127 ≠ 1 := by norm_num

/-! Parser lemmas: the fallback loop terminates within length + 1
iterations, never fails an index access, is insensitive to surplus fuel,
and every emitted field is a byte of the input buffer. -/

lemma parseGo_isSome (hasCC : Bool) (data : List Nat) :
    ∀ fuel i, data.length - i < fuel → (parseGo hasCC data fuel i).isSome = true := by
  intro fuel
  induction fuel with
  | zero => intro i h; omega
  | succ f ih =>
    intro i h
    by_cases hi : i < data.length
    · cases hst : data.get? i with
      | none => rw [List.get?_eq_none] at hst; omega
      | some status =>
        by_cases h1 : 0x80 ≤ status ∧ status ≤ 0xEF
        · by_cases h2 : status &&& 0xF0 = 0x80 ∨ status &&& 0xF0 = 0x90 ∨
              status &&& 0xF0 = 0xB0
          · by_cases h3 : i + 2 < data.length
            · cases ha : data.get? (i + 1) with
              | none => rw [List.get?_eq_none] at ha; omega
              | some a =>
                cases hb : data.get? (i + 2) with
                | none => rw [List.get?_eq_none] at hb; omega
                | some b =>
                  have hrec := ih (i + 3) (by omega)
                  simp only [parseGo, if_pos hi, hst, if_pos h1, if_pos h2, if_pos h3,
                    ha, hb, Option.isSome_map']
                  exact hrec
            · have hrec := ih (i + 1) (by omega)
              simp only [parseGo, if_pos hi, hst, if_pos h1, if_pos h2, if_neg h3]
              exact hrec
          · have hrec := ih (i + 1) (by omega)
            simp only [parseGo, if_pos hi, hst, if_pos h1, if_neg h2]
            exact hrec
        · have hrec := ih (i + 1) (by omega)
          simp only [parseGo, if_pos hi, hst, if_neg h1]
          exact hrec
    · simp only [parseGo, if_neg hi, Option.isSome_some]

lemma parseGo_fuel_irrel (hasCC : Bool) (data : List Nat) :
    ∀ f₁ f₂ i, data.length - i < f₁ → data.length - i < f₂ →
      parseGo hasCC data f₁ i = parseGo hasCC data f₂ i := by
  intro f₁
  induction f₁ with
  | zero => intro f₂ i h _; omega
  | succ g ih =>
    intro f₂ i h h₂
    cases f₂ with
    | zero => omega
    | succ g₂ =>
      by_cases hi : i < data.length
      · cases hst : data.get? i with
        | none => rw [List.get?_eq_none] at hst; omega
        | some status =>
          by_cases h1 : 0x80 ≤ status ∧ status ≤ 0xEF
          · by_cases h2 : status &&& 0xF0 = 0x80 ∨ status &&& 0xF0 = 0x90 ∨
                status &&& 0xF0 = 0xB0
            · by_cases h3 : i + 2 < data.length
              · cases ha : data.get? (i + 1) with
                | none => rw [List.get?_eq_none] at ha; omega
                | some a =>
                  cases hb : data.get? (i + 2) with
                  | none => rw [List.get?_eq_none] at hb; omega
                  | some b =>
                    simp only [parseGo, if_pos hi, hst, if_pos h1, if_pos h2, if_pos h3,
                      ha, hb]
                    rw [ih g₂ (i + 3) (by omega) (by omega)]
              · simp only [parseGo, if_pos hi, hst, if_pos h1, if_pos h2, if_neg h3]
                exact ih g₂ (i + 1) (by omega) (by omega)
            · simp only [parseGo, if_pos hi, hst, if_pos h1, if_neg h2]
              exact ih g₂ (i + 1) (by omega) (by omega)
          · simp only [parseGo, if_pos hi, hst, if_neg h1]
            exact ih g₂ (i + 1) (by omega) (by omega)
      · simp only [parseGo, if_neg hi]

lemma parseGo_events (hasCC : Bool) (data : List Nat) :
    ∀ fuel i evs, parseGo hasCC data fuel i = some evs → ∀ e ∈ evs,
      (∃ n v, e = Event.noteOn n v ∧ n ∈ data ∧ v ∈ data ∧ 0 < v) ∨
      (∃ n, e = Event.noteOff n ∧ n ∈ data) ∨
      (∃ c v, e = Event.controlChange c v ∧ c ∈ data ∧ v ∈ data) := by
  intro fuel
  induction fuel with
  | zero => intro i evs h; exact Option.noConfusion h
  | succ f ih =>
    intro i evs h e he
    by_cases hi : i < data.length
    · cases hst : data.get? i with
      | none =>
        simp only [parseGo, if_pos hi, hst] at h
        exact Option.noConfusion h
      | some status =>
        by_cases h1 : 0x80 ≤ status ∧ status ≤ 0xEF
        · by_cases h2 : status &&& 0xF0 = 0x80 ∨ status &&& 0xF0 = 0x90 ∨
              status &&& 0xF0 = 0xB0
          · by_cases h3 : i + 2 < data.length
            · cases ha : data.get? (i + 1) with
              | none =>
                simp only [parseGo, if_pos hi, hst, if_pos h1, if_pos h2, if_pos h3, ha] at h
                exact Option.noConfusion h
              | some a =>
                cases hb : data.get? (i + 2) with
                | none =>
                  simp only [parseGo, if_pos hi, hst, if_pos h1, if_pos h2, if_pos h3,
                    ha, hb] at h
                  exact Option.noConfusion h
                | some b =>
                  simp only [parseGo, if_pos hi, hst, if_pos h1, if_pos h2, if_pos h3,
                    ha, hb] at h
                  obtain ⟨rest, hrest, hevs⟩ := Option.map_eq_some'.mp h
                  subst hevs
                  rcases List.mem_append.mp he with hL | hR
                  · have hamem : a ∈ data := List.get?_mem ha
                    have hbmem : b ∈ data := List.get?_mem hb
                    by_cases t90 : status &&& 0xF0 = 0x90
                    · rw [if_pos t90] at hL
                      by_cases hbpos : 0 < b
                      · rw [if_pos hbpos] at hL
                        rcases List.mem_singleton.mp hL with rfl
                        exact Or.inl ⟨a, b, rfl, hamem, hbmem, hbpos⟩
                      · rw [if_neg hbpos] at hL
                        rcases List.mem_singleton.mp hL with rfl
                        exact Or.inr (Or.inl ⟨a, rfl, hamem⟩)
                    · rw [if_neg t90] at hL
                      by_cases t80 : status &&& 0xF0 = 0x80
                      · rw [if_pos t80] at hL
                        rcases List.mem_singleton.mp hL with rfl
                        exact Or.inr (Or.inl ⟨a, rfl, hamem⟩)
                      · rw [if_neg t80] at hL
                        by_cases tB0 : status &&& 0xF0 = 0xB0 ∧ hasCC = true
                        · rw [if_pos tB0] at hL
                          rcases List.mem_singleton.mp hL with rfl
                          exact Or.inr (Or.inr ⟨a, b, rfl, hamem, hbmem⟩)
                        · rw [if_neg tB0] at hL
                          exact absurd hL (List.not_mem_nil e)
                  · exact ih (i + 3) rest hrest e hR
            · simp only [parseGo, if_pos hi, hst, if_pos h1, if_pos h2, if_neg h3] at h
              exact ih (i + 1) evs h e he
          · simp only [parseGo, if_pos hi, hst, if_pos h1, if_neg h2] at h
            exact ih (i + 1) evs h e he
        · simp only [parseGo, if_pos hi, hst, if_neg h1] at h
          exact ih (i + 1) evs h e he
    · simp only [parseGo, if_neg hi, Option.some.injEq] at h
      subst h
      exact absurd he (List.not_mem_nil e)

lemma handle_packet_some (hasCC : Bool) (data : List Nat) :
    parseGo hasCC data (data.length + 1) 0 = some (handle_packet hasCC data) := by
  have h := parseGo_isSome hasCC data (data.length + 1) 0 (by omega)
  cases hp : parseGo hasCC data (data.length + 1) 0 with
  | none => rw [hp] at h; simp at h
  | some evs => simp only [handle_packet, hp, Option.getD_some]

lemma handle_packet_events (hasCC : Bool) (data : List Nat) :
    ∀ e ∈ handle_packet hasCC data,
      (∃ n v, e = Event.noteOn n v ∧ n ∈ data ∧ v ∈ data ∧ 0 < v) ∨
      (∃ n, e = Event.noteOff n ∧ n ∈ data) ∨
      (∃ c v, e = Event.controlChange c v ∧ c ∈ data ∧ v ∈ data) :=
  parseGo_events hasCC data (data.length + 1) 0 (handle_packet hasCC data)
    (handle_packet_some hasCC data)

lemma parseGo_tail_empty (hasCC : Bool) (data : List Nat) :
    ∀ fuel i, data.length ≤ i + 2 → data.length - i < fuel →
      parseGo hasCC data fuel i = some [] := by
  intro fuel
  induction fuel with
  | zero => intro i h hf; omega
  | succ f ih =>
    intro i h hf
    by_cases hi : i < data.length
    · cases hst : data.get? i with
      | none => rw [List.get?_eq_none] at hst; omega
      | some status =>
        by_cases h1 : 0x80 ≤ status ∧ status ≤ 0xEF
        · by_cases h2 : status &&& 0xF0 = 0x80 ∨ status &&& 0xF0 = 0x90 ∨
              status &&& 0xF0 = 0xB0
          · have h3 : ¬ i + 2 < data.length := by omega
            simp only [parseGo, if_pos hi, hst, if_pos h1, if_pos h2, if_neg h3]
            exact ih (i + 1) (by omega) (by omega)
          · simp only [parseGo, if_pos hi, hst, if_pos h1, if_neg h2]
            exact ih (i + 1) (by omega) (by omega)
        · simp only [parseGo, if_pos hi, hst, if_neg h1]
          exact ih (i + 1) (by omega) (by omega)
    · simp only [parseGo, if_neg hi]

/-- Claim C1, counterexample: the fallback parser of
MidiHandler.handle_packet does not mask data bytes to 7 bits.  On the
3-byte buffer [0x90, 0x80, 0x40] it invokes note_on_cb with note 128,
which is outside [0,127]. -/
theorem c1_counterexample :
    handle_packet true [0x90, 0x80, 0x40] = [Event.noteOn 128 64] ∧ ¬ 128 ≤ 127 := by
  exact ⟨by decide, by decide⟩

/-- Claim C1 (amended): the fallback parser passes the raw data bytes to
the callbacks without any 7-bit masking, so the note/velocity fields are
only bounded by the byte range: for every buffer of bytes below 256,
every field of every emitted event is below 256 (and fields lie in
[0,127] exactly when the corresponding data bytes already do). -/
theorem c1_fields_are_raw_bytes (hasCC : Bool) (data : List Nat)
    (h : ∀ b ∈ data, b < 256) :
    ∀ e ∈ handle_packet hasCC data, fieldsBelow 256 e = true := by
  intro e he
  rcases handle_packet_events hasCC data e he with
    ⟨n, v, rfl, hn, hv, _⟩ | ⟨n, rfl, hn⟩ | ⟨c, v, rfl, hc, hv⟩
  · simp only [fieldsBelow, Bool.and_eq_true, decide_eq_true_eq]
    exact ⟨h n hn, h v hv⟩
  · simp only [fieldsBelow, decide_eq_true_eq]
    exact h n hn
  · simp only [fieldsBelow, Bool.and_eq_true, decide_eq_true_eq]
    exact ⟨h c hc, h v hv⟩

/-- Witness for C1 at the buffer [0x90, 0x24, 0x64]. -/
theorem c1_witness :
    (∀ b ∈ [0x90, 0x24, 0x64], b < 256) ∧
      ∀ e ∈ handle_packet true [0x90, 0x24, 0x64], fieldsBelow 256 e = true :=
  ⟨by decide, c1_fields_are_raw_bytes true [0x90, 0x24, 0x64] (by decide)⟩

/-- Claim C2: a complete NoteOn message with second data byte 0 is
dispatched as a NoteOff, never as a velocity-0 NoteOn: no emitted noteOn
event ever has velocity 0, and the buffer [0x90, 0x24, 0x00] produces
exactly one note_off callback for note 36 and nothing else. -/
theorem c2_velocity_zero_noteOn_is_noteOff :
    (∀ hasCC data n v, Event.noteOn n v ∈ handle_packet hasCC data → 0 < v) ∧
    ∀ hasCC, handle_packet hasCC [0x90, 0x24, 0x00] = [Event.noteOff 36] := by
  constructor
  · intro hasCC data n v h
    rcases handle_packet_events hasCC data _ h with
      ⟨n', v', he, _, _, hpos⟩ | ⟨n', he, _⟩ | ⟨c, v', he, _, _⟩
    · injection he with h1 h2
      omega
    · exact Event.noConfusion he
    · exact Event.noConfusion he
  · intro hasCC
    cases hasCC <;> decide

/-- Witness for C2: [0x90, 0x26, 0x64] emits noteOn 38 100, whose
velocity is positive, and the velocity-0 buffer gives the single
noteOff. -/
theorem c2_witness :
    0 < 100 ∧ handle_packet true [0x90, 0x24, 0x00] = [Event.noteOff 36] :=
  ⟨c2_velocity_zero_noteOn_is_noteOff.1 true [0x90, 0x26, 0x64] 38 100 (by decide),
   c2_velocity_zero_noteOn_is_noteOff.2 true⟩

/-- Claim C3: for every input buffer the fallback loop of handle_packet
terminates normally — the scan starting at cursor 0 completes within
length + 1 iterations with no failed index access (isSome: the fuel
embedding returns none on either), and giving the loop any more fuel
changes nothing. -/
theorem c3_fallback_loop_terminates (hasCC : Bool) (data : List Nat) :
    (parseGo hasCC data (data.length + 1) 0).isSome = true ∧
    ∀ fuel, data.length < fuel →
      parseGo hasCC data fuel 0 = parseGo hasCC data (data.length + 1) 0 :=
  ⟨parseGo_isSome hasCC data (data.length + 1) 0 (by omega),
   fun fuel hf =>
     parseGo_fuel_irrel hasCC data fuel (data.length + 1) 0 (by omega) (by omega)⟩

/-- Witness for C3 at a concrete 3-byte buffer and fuel 10. -/
theorem c3_witness :
    (parseGo true [0x90, 0x24, 0x00] ([0x90, 0x24, 0x00].length + 1) 0).isSome = true ∧
    parseGo true [0x90, 0x24, 0x00] 10 0 =
      parseGo true [0x90, 0x24, 0x00] ([0x90, 0x24, 0x00].length + 1) 0 :=
  ⟨(c3_fallback_loop_terminates true [0x90, 0x24, 0x00]).1,
   (c3_fallback_loop_terminates true [0x90, 0x24, 0x00]).2 10 (by decide)⟩

/-- Claim C4: a supported status byte not followed by two data bytes
before the buffer ends produces no event: the empty buffer, any
single-byte buffer, any two-byte buffer and in particular the truncated
[0x90, 0x24] all parse to the empty event sequence, the incomplete
trailing message being dropped silently. -/
theorem c4_incomplete_message_no_events (hasCC : Bool) (s d : Nat) :
    handle_packet hasCC [] = [] ∧
    handle_packet hasCC [s] = [] ∧
    handle_packet hasCC [s, d] = [] ∧
    handle_packet hasCC [0x90, 0x24] = [] := by
  refine ⟨?_, ?_, ?_, ?_⟩ <;>
  · rw [handle_packet, parseGo_tail_empty hasCC _ _ 0 (by simp) (by simp)]
    rfl

/-! Association-list lemmas for the dict embedding. -/

lemma alookup_setEntry_self {α β : Type} [DecidableEq α] (k : α) (v : β) (l : List (α × β)) :
    alookup k (setEntry k v l) = some v := by
  induction l with
  | nil => simp [setEntry, alookup]
  | cons hd t ih =>
    obtain ⟨k₁, v₁⟩ := hd
    by_cases hk : k₁ = k
    · simp [setEntry, hk, alookup]
    · simp [setEntry, hk, alookup, ih]

lemma alookup_setEntry_ne {α β : Type} [DecidableEq α] {j k : α} (v : β) (l : List (α × β))
    (h : j ≠ k) : alookup j (setEntry k v l) = alookup j l := by
  induction l with
  | nil => simp only [setEntry, alookup, if_neg (Ne.symm h)]
  | cons hd t ih =>
    obtain ⟨k₁, v₁⟩ := hd
    by_cases hk : k₁ = k
    · subst hk
      simp only [setEntry, if_pos rfl, alookup, if_neg (Ne.symm h)]
    · simp only [setEntry, if_neg hk, alookup]
      by_cases hj : k₁ = j
      · rw [if_pos hj, if_pos hj]
      · rw [if_neg hj, if_neg hj, ih]

lemma mem_keys_setEntry {α β : Type} [DecidableEq α] (j k : α) (v : β) (l : List (α × β)) :
    j ∈ (setEntry k v l).map Prod.fst ↔ j = k ∨ j ∈ l.map Prod.fst := by
  induction l with
  | nil => simp [setEntry]
  | cons hd t ih =>
    obtain ⟨k₁, v₁⟩ := hd
    by_cases hk : k₁ = k
    · subst hk
      rw [show setEntry k₁ v ((k₁, v₁) :: t) = (k₁, v) :: t from by simp [setEntry]]
      simp only [List.map_cons, List.mem_cons]
      tauto
    · simp only [setEntry, if_neg hk, List.map_cons, List.mem_cons, ih]
      tauto

lemma keysNodup_setEntry {α β : Type} [DecidableEq α] (k : α) (v : β) {l : List (α × β)}
    (h : keysNodup l) : keysNodup (setEntry k v l) := by
  induction l with
  | nil => simp [keysNodup, setEntry]
  | cons hd t ih =>
    obtain ⟨k₁, v₁⟩ := hd
    rw [keysNodup, List.map_cons, List.nodup_cons] at h
    by_cases hk : k₁ = k
    · subst hk
      rw [keysNodup, setEntry, if_pos rfl, List.map_cons, List.nodup_cons]
      exact h
    · rw [keysNodup, setEntry, if_neg hk, List.map_cons, List.nodup_cons]
      refine ⟨?_, ih h.2⟩
      intro hmem
      rcases (mem_keys_setEntry k₁ k v t).mp hmem with rfl | hmem₁
      · exact hk rfl
      · exact h.1 hmem₁

lemma mem_keys_removeKey {α β : Type} [DecidableEq α] (j k : α) (l : List (α × β)) :
    j ∈ (removeKey k l).map Prod.fst → j ∈ l.map Prod.fst := by
  induction l with
  | nil => simp [removeKey]
  | cons hd t ih =>
    obtain ⟨k₁, v₁⟩ := hd
    by_cases hk : k₁ = k
    · rw [removeKey, if_pos hk]
      intro hmem
      simp only [List.map_cons, List.mem_cons]
      exact Or.inr hmem
    · rw [removeKey, if_neg hk]
      simp only [List.map_cons, List.mem_cons]
      rintro (rfl | hmem)
      · exact Or.inl rfl
      · exact Or.inr (ih hmem)

lemma keysNodup_removeKey {α β : Type} [DecidableEq α] (k : α) {l : List (α × β)}
    (h : keysNodup l) : keysNodup (removeKey k l) := by
  induction l with
  | nil => simpa [removeKey] using h
  | cons hd t ih =>
    obtain ⟨k₁, v₁⟩ := hd
    rw [keysNodup, List.map_cons, List.nodup_cons] at h
    by_cases hk : k₁ = k
    · rw [removeKey, if_pos hk]
      exact h.2
    · rw [keysNodup, removeKey, if_neg hk, List.map_cons, List.nodup_cons]
      exact ⟨fun hmem => h.1 (mem_keys_removeKey k₁ k t hmem), ih h.2⟩

lemma alookup_eq_none {α β : Type} [DecidableEq α] (k : α) (l : List (α × β)) :
    alookup k l = none ↔ k ∉ l.map Prod.fst := by
  induction l with
  | nil => simp [alookup]
  | cons hd t ih =>
    obtain ⟨k₁, v₁⟩ := hd
    by_cases hk : k₁ = k
    · subst hk
      rw [show alookup k₁ ((k₁, v₁) :: t) = some v₁ from by simp [alookup]]
      constructor
      · intro h
        exact Option.noConfusion h
      · intro h
        exact absurd (by simp) h
    · simp only [alookup, if_neg hk, List.map_cons, List.mem_cons, ih]
      constructor
      · intro h hmem
        rcases hmem with h₁ | h₂
        · exact hk h₁.symm
        · exact h h₂
      · intro h hmem
        exact h (Or.inr hmem)

lemma alookup_mem {α β : Type} [DecidableEq α] {k : α} {v : β} {l : List (α × β)}
    (h : alookup k l = some v) : (k, v) ∈ l := by
  induction l with
  | nil => exact Option.noConfusion h
  | cons hd t ih =>
    obtain ⟨k₁, v₁⟩ := hd
    by_cases hk : k₁ = k
    · subst hk
      rw [alookup, if_pos rfl, Option.some.injEq] at h
      subst h
      exact List.mem_cons_self _ _
    · rw [alookup, if_neg hk] at h
      exact List.mem_cons_of_mem _ (ih h)

lemma alookup_removeKey_ne {α β : Type} [DecidableEq α] {j k : α} (l : List (α × β))
    (h : j ≠ k) : alookup j (removeKey k l) = alookup j l := by
  induction l with
  | nil => simp [removeKey]
  | cons hd t ih =>
    obtain ⟨k₁, v₁⟩ := hd
    by_cases hk : k₁ = k
    · subst hk
      rw [removeKey, if_pos rfl, alookup, if_neg (fun hkj => h hkj.symm)]
    · rw [removeKey, if_neg hk, alookup, alookup, ih]

lemma alookup_removeKey_self {α β : Type} [DecidableEq α] (k : α) {l : List (α × β)}
    (h : keysNodup l) : alookup k (removeKey k l) = none := by
  induction l with
  | nil => simp [removeKey, alookup]
  | cons hd t ih =>
    obtain ⟨k₁, v₁⟩ := hd
    rw [keysNodup, List.map_cons, List.nodup_cons] at h
    by_cases hk : k₁ = k
    · subst hk
      rw [removeKey, if_pos rfl]
      exact (alookup_eq_none k₁ t).mpr h.1
    · rw [removeKey, if_neg hk, alookup, if_neg hk]
      exact ih h.2

/-! Engine lemmas: branch characterizations of note_on, preservation of
the dict invariant and of the sound bank. -/

lemma note_on_of_bank_none {n : Nat} {e : EngineState} (v : Nat) (p : Option Nat)
    (h : alookup (resolveDrum n) e.volumes = none) : note_on n v p e = e := by
  simp [note_on, h]

lemma note_on_of_bank_some_play {n : Nat} {e : EngineState} {q : ℚ} (v ch : Nat)
    (h : alookup (resolveDrum n) e.volumes = some q) :
    note_on n v (some ch) e =
      { active := setEntry n ch e.active,
        volumes := setEntry (resolveDrum n) ((v : ℚ) / 127) e.volumes } := by
  simp [note_on, h]

lemma note_on_of_bank_some_fail {n : Nat} {e : EngineState} {q : ℚ} (v : Nat)
    (h : alookup (resolveDrum n) e.volumes = some q) :
    note_on n v none e =
      { e with volumes := setEntry (resolveDrum n) ((v : ℚ) / 127) e.volumes } := by
  simp [note_on, h]

lemma keysNodup_note_on (n v : Nat) (p : Option Nat) {e : EngineState}
    (h : keysNodup e.active) : keysNodup (note_on n v p e).active := by
  cases hb : alookup (resolveDrum n) e.volumes with
  | none => rw [note_on_of_bank_none v p hb]; exact h
  | some q =>
    cases p with
    | some ch => rw [note_on_of_bank_some_play v ch hb]; exact keysNodup_setEntry n ch h
    | none => rw [note_on_of_bank_some_fail v hb]; exact h

lemma keysNodup_note_off (n : Nat) {e : EngineState}
    (h : keysNodup e.active) : keysNodup (note_off n e).1.active := by
  cases ha : alookup n e.active with
  | none => simp only [note_off, ha]; exact h
  | some ch => simp only [note_off, ha]; exact keysNodup_removeKey n h

lemma keysNodup_runOps (ops : List DrumOp) :
    ∀ {e : EngineState}, keysNodup e.active → keysNodup (runOps ops e).active := by
  induction ops with
  | nil => intro e h; exact h
  | cons op t ih =>
    intro e h
    show keysNodup (runOps t (applyOp e op)).active
    refine ih ?_
    cases op with
    | trig n v p => exact keysNodup_note_on n v p h
    | rel n => exact keysNodup_note_off n h

lemma volumes_isSome_applyOp (k : String) (op : DrumOp) {e : EngineState}
    (h : (alookup k e.volumes).isSome = true) :
    (alookup k (applyOp e op).volumes).isSome = true := by
  cases op with
  | rel n =>
    cases ha : alookup n e.active with
    | none => simp only [applyOp, note_off, ha]; exact h
    | some ch => simp only [applyOp, note_off, ha]; exact h
  | trig n v p =>
    cases hb : alookup (resolveDrum n) e.volumes with
    | none => simp only [applyOp]; rw [note_on_of_bank_none v p hb]; exact h
    | some q =>
      by_cases hk : k = resolveDrum n
      · subst hk
        cases p with
        | none =>
          simp only [applyOp]
          rw [note_on_of_bank_some_fail v hb, alookup_setEntry_self]
          rfl
        | some ch =>
          simp only [applyOp]
          rw [note_on_of_bank_some_play v ch hb, alookup_setEntry_self]
          rfl
      · cases p with
        | none =>
          simp only [applyOp]
          rw [note_on_of_bank_some_fail v hb]
          show (alookup k (setEntry (resolveDrum n) ((v : ℚ) / 127) e.volumes)).isSome = true
          rw [alookup_setEntry_ne _ _ hk]
          exact h
        | some ch =>
          simp only [applyOp]
          rw [note_on_of_bank_some_play v ch hb]
          show (alookup k (setEntry (resolveDrum n) ((v : ℚ) / 127) e.volumes)).isSome = true
          rw [alookup_setEntry_ne _ _ hk]
          exact h

lemma volumes_isSome_runOps (ops : List DrumOp) (k : String) :
    ∀ {e : EngineState}, (alookup k e.volumes).isSome = true →
      (alookup k (runOps ops e).volumes).isSome = true := by
  induction ops with
  | nil => intro e h; exact h
  | cons op t ih =>
    intro e h
    show (alookup k (runOps t (applyOp e op)).volumes).isSome = true
    exact ih (volumes_isSome_applyOp k op h)

lemma resolveDrum_in_bank (note : Nat) :
    (alookup (resolveDrum note) engineInit.volumes).isSome = true := by
  cases h : alookup note note_map with
  | none => simp only [resolveDrum, h]; decide
  | some d =>
    have hmem := alookup_mem h
    simp only [resolveDrum, h]
    fin_cases hmem <;> decide

/-- Claim C5: the active-voices dict tracks at most one channel per MIDI
note (its keys stay duplicate-free under every sequence of note_on /
note_off calls starting from the freshly constructed engine), and a
note_on whose play succeeded replaces exactly the tracked reference: the
note now maps to the newest channel while every other note's entry is
untouched. -/
theorem c5_one_tracked_handle_per_note :
    (∀ ops, keysNodup (runOps ops engineInit).active) ∧
    (∀ ops n v ch,
      alookup n (note_on n v (some ch) (runOps ops engineInit)).active = some ch) ∧
    (∀ e n v p m, m ≠ n →
      alookup m (note_on n v p e).active = alookup m e.active) := by
  refine ⟨?_, ?_, ?_⟩
  · intro ops
    exact keysNodup_runOps ops (by simp [engineInit, keysNodup])
  · intro ops n v ch
    have hsome := volumes_isSome_runOps ops (resolveDrum n) (resolveDrum_in_bank n)
    obtain ⟨q, hq⟩ := Option.isSome_iff_exists.mp hsome
    rw [note_on_of_bank_some_play v ch hq]
    exact alookup_setEntry_self n ch _
  · intro e n v p m hm
    cases hb : alookup (resolveDrum n) e.volumes with
    | none => rw [note_on_of_bank_none v p hb]
    | some q =>
      cases p with
      | some ch =>
        rw [note_on_of_bank_some_play v ch hb]
        exact alookup_setEntry_ne ch e.active hm
      | none => rw [note_on_of_bank_some_fail v hb]

/-- Witness for C5: a concrete trigger/release history keeps the keys
duplicate-free; a retrigger of note 36 tracks channel 2; other notes are
untouched. -/
theorem c5_witness :
    keysNodup (runOps [DrumOp.trig 36 100 (some 1), DrumOp.trig 36 90 (some 2),
      DrumOp.rel 36] engineInit).active ∧
    alookup 36 (note_on 36 100 (some 2) (runOps [DrumOp.trig 36 100 (some 1)]
      engineInit)).active = some 2 ∧
    alookup 40 (note_on 36 100 (some 2) engineInit).active = alookup 40 engineInit.active :=
  ⟨c5_one_tracked_handle_per_note.1 _,
   c5_one_tracked_handle_per_note.2.1 [DrumOp.trig 36 100 (some 1)] 36 100 2,
   c5_one_tracked_handle_per_note.2.2 engineInit 36 100 (some 2) 40 (by decide)⟩

/-- Claim C6: note_off removes the tracking entry when one is present and
requests a 100 ms fadeout of that channel, leaves all other entries and
the sounds untouched, and is a complete no-op (state unchanged, no
fadeout, no error) when no entry is tracked; in particular after
note_on(36,127) and a first note_off(36), a second note_off(36) is a
no-op. -/
theorem c6_note_off_untracked_no_op :
    (∀ e n, alookup n e.active = none → note_off n e = (e, none)) ∧
    (∀ e n ch, keysNodup e.active → alookup n e.active = some ch →
      (note_off n e).2 = some (ch, 100) ∧
      alookup n (note_off n e).1.active = none ∧
      (∀ m, m ≠ n → alookup m (note_off n e).1.active = alookup m e.active) ∧
      (note_off n e).1.volumes = e.volumes) ∧
    (note_off 36 (note_off 36 (note_on 36 127 (some 7) engineInit)).1 =
      ((note_off 36 (note_on 36 127 (some 7) engineInit)).1, none)) := by
  have hnoop : ∀ (e : EngineState) n, alookup n e.active = none →
      note_off n e = (e, none) := by
    intro e n h
    simp only [note_off, h]
  refine ⟨hnoop, ?_, ?_⟩
  · intro e n ch hnd h
    simp only [note_off, h]
    refine ⟨trivial, ?_, ?_, trivial⟩
    · exact alookup_removeKey_self n hnd
    · intro m hm
      exact alookup_removeKey_ne e.active hm
  · have hb : alookup (resolveDrum 36) engineInit.volumes = some 1 := by decide
    have hact : (note_on 36 127 (some 7) engineInit).active = [(36, 7)] := by
      rw [note_on_of_bank_some_play 127 7 hb]
      rfl
    have hoff : (note_off 36 (note_on 36 127 (some 7) engineInit)).1.active = [] := by
      simp only [note_off, hact]
      rfl
    have hnone : alookup 36 (note_off 36 (note_on 36 127 (some 7) engineInit)).1.active
        = none := by
      rw [hoff]
      rfl
    exact hnoop _ 36 hnone

/-- Witness for C6 at two small concrete states. -/
theorem c6_witness :
    note_off 36 ({ active := [], volumes := [] } : EngineState) =
      (({ active := [], volumes := [] } : EngineState), none) ∧
    (note_off 36 ({ active := [(36, 7)], volumes := [] } : EngineState)).2 =
      some (7, 100) :=
  ⟨c6_note_off_untracked_no_op.1 ({ active := [], volumes := [] } : EngineState) 36
      (by decide),
   (c6_note_off_untracked_no_op.2.1 ({ active := [(36, 7)], volumes := [] } : EngineState)
      36 7 (by decide) (by decide)).1⟩

/-- Claim C7: every MIDI note outside the mapped set resolves to the
default snare timbre, the resolved drum key of any note whatsoever is
present in the constructed sound bank (so note_on never errors on
resolution), and each of the 17 mapped notes resolves to its mapped
category. -/
theorem c7_unmapped_note_falls_back_to_snare :
    (∀ note, note ∉ mappedNotes → resolveDrum note = "snare") ∧
    (∀ note, (alookup (resolveDrum note) engineInit.volumes).isSome = true) ∧
    (resolveDrum 35 = "kick" ∧ resolveDrum 36 = "kick" ∧ resolveDrum 38 = "snare" ∧
     resolveDrum 40 = "snare" ∧ resolveDrum 41 = "tom_low" ∧
     resolveDrum 42 = "hihat_closed" ∧ resolveDrum 43 = "tom_low" ∧
     resolveDrum 44 = "hihat_closed" ∧ resolveDrum 45 = "tom_mid" ∧
     resolveDrum 46 = "hihat_open" ∧ resolveDrum 47 = "tom_low" ∧
     resolveDrum 48 = "tom_mid" ∧ resolveDrum 49 = "crash" ∧
     resolveDrum 50 = "tom_high" ∧ resolveDrum 51 = "ride" ∧
     resolveDrum 52 = "crash" ∧ resolveDrum 53 = "ride") := by
  refine ⟨?_, resolveDrum_in_bank, by decide⟩
  intro note hn
  have hkeys : note ∉ note_map.map Prod.fst := by
    intro hmem
    apply hn
    simp only [note_map, List.map_cons, List.map_nil, List.mem_cons,
      List.not_mem_nil, or_false] at hmem
    simp only [mappedNotes, List.mem_cons, List.not_mem_nil, or_false]
    tauto
  simp only [resolveDrum, (alookup_eq_none note note_map).mpr hkeys]

/-- Witness for C7 at the unmapped note 127. -/
theorem c7_witness :
    (127 : Nat) ∉ mappedNotes ∧ resolveDrum 127 = "snare" :=
  ⟨by decide, c7_unmapped_note_falls_back_to_snare.1 127 (by decide)⟩

/-- Claim C8, counterexample: the bank Sound objects are not left
unchanged by note_on — sound.set_volume(velocity/127.0) mutates the
shared kick Sound's playback gain: after note_on(36, 64) the kick volume
is 64/127, no longer the initial 1.0. -/
theorem c8_counterexample :
    alookup ("kick") (note_on 36 64 (some 5) engineInit).volumes =
      some (((64 : Nat) : ℚ) / 127) ∧
    alookup ("kick") engineInit.volumes = some 1 ∧
    (((64 : Nat) : ℚ) / 127) ≠ 1 := by
  refine ⟨?_, by decide, by norm_num⟩
  have hb : alookup (resolveDrum 36) engineInit.volumes = some 1 := by decide
  rw [note_on_of_bank_some_play 64 5 hb]
  rw [show resolveDrum 36 = "kick" from by decide]
  exact alookup_setEntry_self _ _ _

/-- Claim C8 (amended): the sample buffers of the bank are fixed at
construction and note_off mutates no Sound at all, but note_on sets the
playback gain of the resolved (shared) bank Sound to velocity/127,
leaving every other Sound's gain unchanged. -/
theorem c8_note_on_sets_shared_gain :
    (∀ e n, (note_off n e).1.volumes = e.volumes) ∧
    (∀ (e : EngineState) n v p q, alookup (resolveDrum n) e.volumes = some q →
      (note_on n v p e).volumes =
        setEntry (resolveDrum n) ((v : ℚ) / 127) e.volumes ∧
      ∀ d, d ≠ resolveDrum n →
        alookup d (note_on n v p e).volumes = alookup d e.volumes) := by
  constructor
  · intro e n
    cases ha : alookup n e.active with
    | none => simp only [note_off, ha]
    | some ch => simp only [note_off, ha]
  · intro e n v p q hq
    have hvol : (note_on n v p e).volumes =
        setEntry (resolveDrum n) ((v : ℚ) / 127) e.volumes := by
      cases p with
      | some ch => rw [note_on_of_bank_some_play v ch hq]
      | none => rw [note_on_of_bank_some_fail v hq]
    refine ⟨hvol, ?_⟩
    intro d hd
    rw [hvol]
    exact alookup_setEntry_ne _ e.volumes hd

/-- Witness for C8 (amended) at note 36 / velocity 64 on the fresh
engine. -/
theorem c8_witness :
    (note_on 36 64 (some 5) engineInit).volumes =
      setEntry (resolveDrum 36) (((64 : Nat) : ℚ) / 127) engineInit.volumes ∧
    alookup ("snare") (note_on 36 64 (some 5) engineInit).volumes =
      alookup ("snare") engineInit.volumes :=
  ⟨(c8_note_on_sets_shared_gain.2 engineInit 36 64 (some 5) 1 (by decide)).1,
   (c8_note_on_sets_shared_gain.2 engineInit 36 64 (some 5) 1 (by decide)).2
      ("snare") (by decide)⟩

/-- Claim C10: when sound.play() yields no channel, note_on still
returns normally and leaves the active-voices table exactly as it was —
in particular any previously tracked handle for the same note remains
tracked. -/
theorem c10_play_failure_keeps_table (n v : Nat) (e : EngineState) :
    (note_on n v none e).active = e.active ∧
    ∀ m, alookup m (note_on n v none e).active = alookup m e.active := by
  have hact : (note_on n v none e).active = e.active := by
    cases hb : alookup (resolveDrum n) e.volumes with
    | none => rw [note_on_of_bank_none v none hb]
    | some q => rw [note_on_of_bank_some_fail v hb]
  exact ⟨hact, fun m => by rw [hact]⟩

/-! Synthesis lemmas: the peak of a sample list, and the normalize-to-a-
ceiling tail shared by every recipe. -/

lemma peakAbs_cons (x : ℝ) (t : List ℝ) : peakAbs (x :: t) = max |x| (peakAbs t) := rfl

lemma peakAbs_nonneg (l : List ℝ) : 0 ≤ peakAbs l := by
  induction l with
  | nil => simp [peakAbs]
  | cons x t ih =>
    rw [peakAbs_cons]
    exact le_trans ih (le_max_right _ _)

lemma abs_le_peakAbs {x : ℝ} {l : List ℝ} (h : x ∈ l) : |x| ≤ peakAbs l := by
  induction l with
  | nil => cases h
  | cons y t ih =>
    rw [peakAbs_cons]
    rcases List.mem_cons.mp h with rfl | h₂
    · exact le_max_left _ _
    · exact le_trans (ih h₂) (le_max_right _ _)

lemma peakAbs_le {l : List ℝ} {c : ℝ} (hc : 0 ≤ c) (h : ∀ x ∈ l, |x| ≤ c) :
    peakAbs l ≤ c := by
  induction l with
  | nil => simpa [peakAbs] using hc
  | cons y t ih =>
    rw [peakAbs_cons]
    exact max_le (h y (List.mem_cons_self y t))
      (ih fun x hx => h x (List.mem_cons_of_mem _ hx))

lemma peakAbs_attained {l : List ℝ} (h : 0 < peakAbs l) :
    ∃ x ∈ l, |x| = peakAbs l := by
  induction l with
  | nil => simp [peakAbs] at h
  | cons y t ih =>
    rw [peakAbs_cons] at h ⊢
    by_cases hy : peakAbs t ≤ |y|
    · exact ⟨y, List.mem_cons_self y t, (max_eq_left hy).symm⟩
    · push_neg at hy
      obtain ⟨x, hx, hxe⟩ := ih (lt_of_le_of_lt (abs_nonneg y) hy)
      exact ⟨x, List.mem_cons_of_mem _ hx, by rw [hxe, max_eq_right (le_of_lt hy)]⟩

lemma pos_peakAbs_of_mem {x : ℝ} {l : List ℝ} (h : x ∈ l) (hx : 0 < |x|) :
    0 < peakAbs l :=
  lt_of_lt_of_le hx (abs_le_peakAbs h)

lemma mem_normalizeTo_abs_le {c : ℝ} (hc : 0 ≤ c) {l : List ℝ} (hp : 0 < peakAbs l) :
    ∀ y ∈ normalizeTo c l, |y| ≤ c := by
  intro y hy
  obtain ⟨x, hx, rfl⟩ := List.mem_map.mp hy
  rw [abs_mul, abs_div, abs_of_pos hp, abs_of_nonneg hc]
  calc |x| / peakAbs l * c ≤ 1 * c := by
        exact mul_le_mul_of_nonneg_right ((div_le_one hp).mpr (abs_le_peakAbs hx)) hc
    _ = c := one_mul c

lemma peakAbs_normalizeTo {c : ℝ} (hc : 0 ≤ c) {l : List ℝ} (hp : 0 < peakAbs l) :
    peakAbs (normalizeTo c l) = c := by
  apply le_antisymm
  · exact peakAbs_le hc (mem_normalizeTo_abs_le hc hp)
  · obtain ⟨x, hx, hxe⟩ := peakAbs_attained hp
    have hmem : x / peakAbs l * c ∈ normalizeTo c l := List.mem_map_of_mem _ hx
    have habs : |x / peakAbs l * c| = c := by
      rw [abs_mul, abs_div, hxe, abs_of_pos hp, div_self (ne_of_gt hp),
        abs_of_nonneg hc, one_mul]
    calc c = |x / peakAbs l * c| := habs.symm
      _ ≤ peakAbs (normalizeTo c l) := abs_le_peakAbs hmem

lemma bufOK_normalizeTo {c : ℝ} (hc : 0 < c) (hc9 : c ≤ 0.9) {l : List ℝ}
    (hp : 0 < peakAbs l) : bufOK c (normalizeTo c l) := by
  refine ⟨peakAbs_normalizeTo (le_of_lt hc) hp, ?_, ?_, ?_⟩
  · obtain ⟨x, hx, hxe⟩ := peakAbs_attained hp
    refine ⟨x / peakAbs l * c, List.mem_map_of_mem _ hx, ?_⟩
    rw [abs_mul, abs_div, hxe, abs_of_pos hp, div_self (ne_of_gt hp),
      abs_of_nonneg (le_of_lt hc), one_mul]
  · intro x hx
    have hb : |x| ≤ c := mem_normalizeTo_abs_le (le_of_lt hc) hp x hx
    have h9 := abs_le.mp (le_trans hb hc9)
    constructor
    · nlinarith [h9.1]
    · nlinarith [h9.2]
  · intro pr hpr
    obtain ⟨x, hx, rfl⟩ := List.mem_map.mp hpr
    rfl

/-! Concrete non-degeneracy witnesses: at chosen sample rates and noise
draws the first sample of each raw recipe is nonzero, so the
pre-normalization peak is positive. -/

lemma rawKick600_pos : 0 < peakAbs (rawKick 600 noiseZero) := by
  have ht0 : ((0 : ℕ) : ℝ) * ((0.5 : ℝ) / ((600 / 2 : ℕ) : ℝ)) = 0 := by norm_num
  have hfreq : kickFreq 600 0 = 150 := by
    unfold kickFreq
    rw [ht0]
    norm_num [Real.exp_zero]
  have hcs : cumsum (kickFreq 600) 0 = 150 := by
    rw [cumsum, Finset.sum_range_one, hfreq]
  have hphase : 2 * Real.pi * cumsum (kickFreq 600) 0 / ((600 : ℕ) : ℝ) = Real.pi / 2 := by
    rw [hcs]
    push_cast
    ring
  have hval : kickWave 600 noiseZero 0 = 1 := by
    unfold kickWave noiseZero
    rw [hphase, ht0, Real.sin_pi_div_two]
    norm_num [Real.exp_zero]
  have hmem : kickWave 600 noiseZero 0 ∈ rawKick 600 noiseZero := by
    unfold rawKick
    exact List.mem_map_of_mem _ (List.mem_range.mpr (by norm_num))
  refine pos_peakAbs_of_mem hmem ?_
  rw [hval]
  norm_num

lemma rawSnare5_pos : 0 < peakAbs (rawSnare 5 noiseOne) := by
  have ht0 : ((0 : ℕ) : ℝ) * ((0.2 : ℝ) / ((5 / 5 : ℕ) : ℝ)) = 0 := by norm_num
  have hval : snareWave 5 noiseOne 0 = 0.7 := by
    unfold snareWave noiseOne
    rw [ht0]
    norm_num [Real.exp_zero, Real.sin_zero]
  have hmem : snareWave 5 noiseOne 0 ∈ rawSnare 5 noiseOne := by
    unfold rawSnare
    exact List.mem_map_of_mem _ (List.mem_range.mpr (by norm_num))
  refine pos_peakAbs_of_mem hmem ?_
  rw [hval]
  norm_num

lemma rawHihatClosed20_pos : 0 < peakAbs (rawHihatClosed 20 noiseOne) := by
  have ht0 : ((0 : ℕ) : ℝ) * ((0.05 : ℝ) / ((20 / 20 : ℕ) : ℝ)) = 0 := by norm_num
  have hval : hihatClosedWave 20 noiseOne 0 = 1 := by
    unfold hihatClosedWave noiseOne
    rw [ht0]
    norm_num [Real.exp_zero, Real.sin_zero]
  have hmem : hihatClosedWave 20 noiseOne 0 ∈ rawHihatClosed 20 noiseOne := by
    unfold rawHihatClosed
    exact List.mem_map_of_mem _ (List.mem_range.mpr (by norm_num))
  refine pos_peakAbs_of_mem hmem ?_
  rw [hval]
  norm_num

lemma rawHihatOpen10_pos : 0 < peakAbs (rawHihatOpen 10 noiseOne) := by
  have ht0 : ((0 : ℕ) : ℝ) * ((0.3 : ℝ) / ((3 * 10 / 10 : ℕ) : ℝ)) = 0 := by norm_num
  have hval : hihatOpenWave 10 noiseOne 0 = 1 := by
    unfold hihatOpenWave noiseOne
    rw [ht0]
    norm_num [Real.exp_zero, Real.sin_zero]
  have hmem : hihatOpenWave 10 noiseOne 0 ∈ rawHihatOpen 10 noiseOne := by
    unfold rawHihatOpen
    exact List.mem_map_of_mem _ (List.mem_range.mpr (by norm_num))
  refine pos_peakAbs_of_mem hmem ?_
  rw [hval]
  norm_num

lemma rawTom120_480_pos : 0 < peakAbs (rawTom 120 480) := by
  have ht0 : ((0 : ℕ) : ℝ) * ((0.4 : ℝ) / ((2 * 480 / 5 : ℕ) : ℝ)) = 0 := by norm_num
  have hfreq : tomFreq 120 480 0 = 120 := by
    unfold tomFreq
    rw [ht0]
    norm_num [Real.exp_zero]
  have hcs : cumsum (tomFreq 120 480) 0 = 120 := by
    rw [cumsum, Finset.sum_range_one, hfreq]
  have hphase : 2 * Real.pi * cumsum (tomFreq 120 480) 0 / ((480 : ℕ) : ℝ)
      = Real.pi / 2 := by
    rw [hcs]
    push_cast
    ring
  have hsin2 : Real.sin (2 * (Real.pi / 2)) = 0 := by
    rw [show 2 * (Real.pi / 2) = Real.pi from by ring, Real.sin_pi]
  have hsin3 : Real.sin (3 * (Real.pi / 2)) = -1 := by
    rw [show 3 * (Real.pi / 2) = Real.pi + Real.pi / 2 from by ring, Real.sin_add,
      Real.sin_pi, Real.cos_pi, Real.sin_pi_div_two, Real.cos_pi_div_two]
    ring
  have hval : tomWave 120 480 0 = 0.9 := by
    unfold tomWave
    rw [hphase, ht0, Real.sin_pi_div_two, hsin2, hsin3]
    norm_num [Real.exp_zero]
  have hmem : tomWave 120 480 0 ∈ rawTom 120 480 := by
    unfold rawTom
    exact List.mem_map_of_mem _ (List.mem_range.mpr (by norm_num))
  refine pos_peakAbs_of_mem hmem ?_
  rw [hval]
  norm_num

lemma rawCrash1_pos : 0 < peakAbs (rawCrash 1 noiseOne) := by
  have ht0 : ((0 : ℕ) : ℝ) * ((1.5 : ℝ) / ((3 * 1 / 2 : ℕ) : ℝ)) = 0 := by norm_num
  have hval : crashWave 1 noiseOne 0 = 1 := by
    unfold crashWave noiseOne
    rw [ht0]
    norm_num [Real.exp_zero, Real.sin_zero]
  have hmem : crashWave 1 noiseOne 0 ∈ rawCrash 1 noiseOne := by
    unfold rawCrash
    exact List.mem_map_of_mem _ (List.mem_range.mpr (by norm_num))
  refine pos_peakAbs_of_mem hmem ?_
  rw [hval]
  norm_num

lemma rawRide1_pos : 0 < peakAbs (rawRide 1 noiseOne) := by
  have ht0 : ((0 : ℕ) : ℝ) * ((1 : ℝ) / ((1 : ℕ) : ℝ)) = 0 := by norm_num
  have hval : rideWave 1 noiseOne 0 = 0.3 := by
    unfold rideWave noiseOne
    rw [ht0]
    norm_num [Real.exp_zero, Real.sin_zero]
  have hmem : rideWave 1 noiseOne 0 ∈ rawRide 1 noiseOne := by
    unfold rawRide
    exact List.mem_map_of_mem _ (List.mem_range.mpr (by norm_num))
  refine pos_peakAbs_of_mem hmem ?_
  rw [hval]
  norm_num

/-- Claim C9, counterexample: not every sample rate yields a buffer — at
sample rate 19 the closed hi-hat recipe has int(19*0.05) = 0 samples, so
np.max of the empty array raises and no buffer is produced (modelled as
none). -/
theorem c9_counterexample : create_hihat_closed 19 noiseZero = none := by
  norm_num [create_hihat_closed]

/-- Claim C9 (amended): for every sample rate at which a recipe's sample
count is at least one, and every noise draw for which its raw waveform is
not identically zero (almost surely the case for the random noise, and
automatic for the noiseless toms at the witness rates), the recipe
produces its buffer normalized so the peak absolute amplitude equals the
category ceiling — kick 0.9, snare 0.85, hihat-closed 0.6, hihat-open
0.5, tom 0.8, crash 0.6, ride 0.65 — the buffer is non-silent, every
sample scaled by 32767 fits the signed 16-bit range, the stereo channels
are identical, and every ceiling lies in [0.5, 0.9]. -/
theorem c9_recipes_normalize_to_ceiling :
    (∀ sr noise, sr / 2 ≠ 0 → 0 < peakAbs (rawKick sr noise) →
      create_kick sr noise = some (normalizeTo 0.9 (rawKick sr noise)) ∧
      bufOK 0.9 (normalizeTo 0.9 (rawKick sr noise))) ∧
    (∀ sr noise, sr / 5 ≠ 0 → 0 < peakAbs (rawSnare sr noise) →
      create_snare sr noise = some (normalizeTo 0.85 (rawSnare sr noise)) ∧
      bufOK 0.85 (normalizeTo 0.85 (rawSnare sr noise))) ∧
    (∀ sr noise, sr / 20 ≠ 0 → 0 < peakAbs (rawHihatClosed sr noise) →
      create_hihat_closed sr noise = some (normalizeTo 0.6 (rawHihatClosed sr noise)) ∧
      bufOK 0.6 (normalizeTo 0.6 (rawHihatClosed sr noise))) ∧
    (∀ sr noise, 3 * sr / 10 ≠ 0 → 0 < peakAbs (rawHihatOpen sr noise) →
      create_hihat_open sr noise = some (normalizeTo 0.5 (rawHihatOpen sr noise)) ∧
      bufOK 0.5 (normalizeTo 0.5 (rawHihatOpen sr noise))) ∧
    (∀ (base : ℝ) sr, 2 * sr / 5 ≠ 0 → 0 < peakAbs (rawTom base sr) →
      create_tom base sr = some (normalizeTo 0.8 (rawTom base sr)) ∧
      bufOK 0.8 (normalizeTo 0.8 (rawTom base sr))) ∧
    (∀ sr noise, 3 * sr / 2 ≠ 0 → 0 < peakAbs (rawCrash sr noise) →
      create_crash sr noise = some (normalizeTo 0.6 (rawCrash sr noise)) ∧
      bufOK 0.6 (normalizeTo 0.6 (rawCrash sr noise))) ∧
    (∀ sr noise, sr ≠ 0 → 0 < peakAbs (rawRide sr noise) →
      create_ride sr noise = some (normalizeTo 0.65 (rawRide sr noise)) ∧
      bufOK 0.65 (normalizeTo 0.65 (rawRide sr noise))) ∧
    (∀ c ∈ ([0.9, 0.85, 0.6, 0.5, 0.8, 0.6, 0.65] : List ℝ),
      0.5 ≤ c ∧ c ≤ 0.9) := by
  refine ⟨?_, ?_, ?_, ?_, ?_, ?_, ?_, ?_⟩
  · intro sr noise hn hp
    exact ⟨by simp only [create_kick, if_neg hn],
      bufOK_normalizeTo (by norm_num) (by norm_num) hp⟩
  · intro sr noise hn hp
    exact ⟨by simp only [create_snare, if_neg hn],
      bufOK_normalizeTo (by norm_num) (by norm_num) hp⟩
  · intro sr noise hn hp
    exact ⟨by simp only [create_hihat_closed, if_neg hn],
      bufOK_normalizeTo (by norm_num) (by norm_num) hp⟩
  · intro sr noise hn hp
    exact ⟨by simp only [create_hihat_open, if_neg hn],
      bufOK_normalizeTo (by norm_num) (by norm_num) hp⟩
  · intro base sr hn hp
    exact ⟨by simp only [create_tom, if_neg hn],
      bufOK_normalizeTo (by norm_num) (by norm_num) hp⟩
  · intro sr noise hn hp
    exact ⟨by simp only [create_crash, if_neg hn],
      bufOK_normalizeTo (by norm_num) (by norm_num) hp⟩
  · intro sr noise hn hp
    exact ⟨by simp only [create_ride, if_neg hn],
      bufOK_normalizeTo (by norm_num) (by norm_num) hp⟩
  · intro c hc
    fin_cases hc <;> norm_num

/-- Witness for C9 at concrete sample rates and noise draws where each
raw waveform is provably non-degenerate. -/
theorem c9_witness :
    bufOK 0.9 (normalizeTo 0.9 (rawKick 600 noiseZero)) ∧
    bufOK 0.85 (normalizeTo 0.85 (rawSnare 5 noiseOne)) ∧
    bufOK 0.6 (normalizeTo 0.6 (rawHihatClosed 20 noiseOne)) ∧
    bufOK 0.5 (normalizeTo 0.5 (rawHihatOpen 10 noiseOne)) ∧
    bufOK 0.8 (normalizeTo 0.8 (rawTom 120 480)) ∧
    bufOK 0.6 (normalizeTo 0.6 (rawCrash 1 noiseOne)) ∧
    bufOK 0.65 (normalizeTo 0.65 (rawRide 1 noiseOne)) :=
  ⟨(c9_recipes_normalize_to_ceiling.1 600 noiseZero (by norm_num) rawKick600_pos).2,
   (c9_recipes_normalize_to_ceiling.2.1 5 noiseOne (by norm_num) rawSnare5_pos).2,
   (c9_recipes_normalize_to_ceiling.2.2.1 20 noiseOne (by norm_num)
      rawHihatClosed20_pos).2,
   (c9_recipes_normalize_to_ceiling.2.2.2.1 10 noiseOne (by norm_num)
      rawHihatOpen10_pos).2,
   (c9_recipes_normalize_to_ceiling.2.2.2.2.1 120 480 (by norm_num)
      rawTom120_480_pos).2,
   (c9_recipes_normalize_to_ceiling.2.2.2.2.2.1 1 noiseOne (by norm_num)
      rawCrash1_pos).2,
   (c9_recipes_normalize_to_ceiling.2.2.2.2.2.2.1 1 noiseOne (by norm_num)
      rawRide1_pos).2⟩
